import Mathlib

/-!
# Verification of the prediction-feedback interaction pipeline

Shallow embedding of the core logic of a vision-classifier review app:
frame normalization (`getProcessedCanvas`), prediction ranking
(`analyzeImage`'s sort), the feedback/correction handlers
(`handleCorrectFeedback`, `handleWrongFeedback`, `handleManualSubmit`,
`handleTargetImageChange`, the `inputSource` effect), the bounded feedback
log (`addFeedbackToLog`), and the retrying service layer (`callWithRetry`,
`getInsightForClass`, `processFeedback`).

Probabilities are modelled as rationals (the source only compares and
subtracts them, so no floating-point rounding is observable in the
properties below). JavaScript `Array.prototype.sort` is stable per the
ECMAScript specification; the descending comparator
`(a, b) => b.probability - a.probability` is therefore modelled by the
stable insertion sort `List.insertionSort` with the non-strict relation
`b.probability ≤ a.probability` (an element is inserted before the first
element it is ≥, hence before later-emitted ties).
-/

namespace VisionQuest

/-- `Prediction` from `types.ts`: `{ className: string; probability: number }`. -/
structure Prediction where
  className : String
  probability : ℚ
deriving DecidableEq, Repr

/-- The descending comparison used by `analyzeImage`:
`(a, b) => b.probability - a.probability` orders `a` before `b`
exactly when `b.probability ≤ a.probability` (ties keep emission order). -/
def predGE (a b : Prediction) : Prop := b.probability ≤ a.probability

instance : DecidableRel predGE := fun a b =>
  inferInstanceAs (Decidable (b.probability ≤ a.probability))

instance : IsTotal Prediction predGE :=
  ⟨fun a b => le_total b.probability a.probability⟩

instance : IsTrans Prediction predGE :=
  ⟨fun _ _ _ hab hbc => le_trans hbc hab⟩

/-- The ranking step of `analyzeImage` (App.tsx line 161):
`[...results].sort((a, b) => b.probability - a.probability)`,
a stable descending sort. -/
def rank (results : List Prediction) : List Prediction :=
  results.insertionSort predGE

/-- Helper for stability: the filter keeping predictions of exactly
probability `q`. -/
def probFilter (q : ℚ) (l : List Prediction) : List Prediction :=
  l.filter (fun x => decide (x.probability = q))

theorem probFilter_nil (q : ℚ) : probFilter q [] = [] := rfl

theorem probFilter_cons (q : ℚ) (x : Prediction) (l : List Prediction) :
    probFilter q (x :: l) =
      if x.probability = q then x :: probFilter q l else probFilter q l := by
  simp only [probFilter, List.filter_cons, decide_eq_true_eq]

theorem probFilter_orderedInsert (q : ℚ) (p : Prediction) (l : List Prediction) :
    probFilter q (l.orderedInsert predGE p) =
      if p.probability = q then p :: probFilter q l else probFilter q l := by
  induction l with
  | nil => simp [List.orderedInsert, probFilter_cons, probFilter_nil]
  | cons x xs ih =>
    by_cases hle : predGE p x
    · simp only [List.orderedInsert, if_pos hle, probFilter_cons]
    · have hlt : p.probability < x.probability := by
        simpa [predGE, not_le] using hle
      simp only [List.orderedInsert, if_neg hle, probFilter_cons, ih]
      by_cases hp : p.probability = q
      · have hx : ¬ x.probability = q := by
          intro hxq
          exact absurd (hxq ▸ hp ▸ hlt) (lt_irrefl _)
        simp [hp, hx]
      · simp [hp]

theorem probFilter_rank (q : ℚ) (l : List Prediction) :
    probFilter q (rank l) = probFilter q l := by
  induction l with
  | nil => rfl
  | cons x xs ih =>
    simp only [rank, List.insertionSort] at *
    rw [probFilter_orderedInsert, probFilter_cons]
    split_ifs with h <;> simp [ih]

/-- C1: For every raw prediction list returned by the classifier, the
ranking step (`analyzeImage`'s stable descending sort) produces an output
sorted in descending order of probability, of the same length as the input
(no predictions dropped), and with ties between equal probabilities kept
in original emission order (stability, stated as: filtering the output to
any fixed probability value yields exactly the corresponding filtering of
the input). -/
theorem rank_sorted_length_stable :
    (∀ l : List Prediction,
        (rank l).Pairwise (fun a b => b.probability ≤ a.probability)) ∧
    (∀ l : List Prediction, (rank l).length = l.length) ∧
    (∀ (q : ℚ) (l : List Prediction), probFilter q (rank l) = probFilter q l) := by
  refine ⟨fun l => ?_, fun l => List.length_insertionSort predGE l,
    fun q l => probFilter_rank q l⟩
  have h := List.sorted_insertionSort predGE l
  exact h

/-! ## Service layer (`geminiService.ts`) -/

/-- The shape of an error thrown by the text-generation backend, as
inspected by `callWithRetry`: an optional HTTP status and a message. -/
structure ApiError where
  status : Option Nat
  message : String
deriving DecidableEq, Repr

/-- Substring containment on character lists, modelling JavaScript
`String.prototype.includes`. -/
def containsSub (pat : List Char) : List Char → Bool
  | [] => pat.isEmpty
  | c :: cs => pat.isPrefixOf (c :: cs) || containsSub pat cs

/-- The resource-exhaustion marker recognized by `callWithRetry`. -/
def resourceExhaustedMarker : String := "RESOURCE_EXHAUSTED"

/-- `const isRateLimit = error?.message?.includes('RESOURCE_EXHAUSTED')
|| error?.status === 429;` -/
def isRateLimit (e : ApiError) : Bool :=
  containsSub resourceExhaustedMarker.toList e.message.toList
    || e.status == some 429

/-- `callWithRetry(fn, retries = 3, initialDelay = 2000)`. The wrapped
operation is modelled as an oracle `fn` that fixes the outcome of each
attempt (attempt numbers count from 0). The second component of the result
is the total number of milliseconds slept across all retries; the code
sleeps `delay` before each retry and recurses with `retries - 1` and
`delay * 2`. -/
def callWithRetry {T : Type} (fn : Nat → Except ApiError T)
    (retries : Nat) (delay : Nat) (attempt : Nat) : Except ApiError T × Nat :=
  match fn attempt with
  | Except.ok v => (Except.ok v, 0)
  | Except.error e =>
    match retries with
    | 0 => (Except.error e, 0)
    | r + 1 =>
      if isRateLimit e then
        ((callWithRetry fn r (delay * 2) (attempt + 1)).1,
          delay + (callWithRetry fn r (delay * 2) (attempt + 1)).2)
      else (Except.error e, 0)

/-- `callWithRetry` at its default policy `retries = 3`,
`initialDelay = 2000`, starting at attempt 0. -/
def callWithRetryDefault {T : Type} (fn : Nat → Except ApiError T) :
    Except ApiError T × Nat :=
  callWithRetry fn 3 2000 0

/-- The fallback string returned by `getInsightForClass` on any failure. -/
def insightFallback : String :=
  "The model has high confidence in this identification. What else can you show it?"

/-- `getInsightForClass(className)`: calls the generator through
`callWithRetry` and catches every error, returning the fixed fallback.
The generator (closed over the prompt built from `className`) is modelled
as the oracle `gen`. -/
def getInsightForClass (gen : Nat → Except ApiError String) : String :=
  match (callWithRetryDefault gen).1 with
  | Except.ok t => t
  | Except.error _ => insightFallback

/-- Fallback of `processFeedback` when the user confirmed. -/
def feedbackAckCorrect : String := "Glad to hear it! Analysis confirmed."

/-- Fallback of `processFeedback` when the user corrected. -/
def feedbackAckIncorrect : String :=
  "Understood. Feedback logged for model refinement."

/-- `processFeedback(className, isCorrect)`: same retry-then-catch shape
as `getInsightForClass`, with the fallback chosen by `isCorrect`. -/
def processFeedback (gen : Nat → Except ApiError String)
    (isCorrect : Bool) : String :=
  match (callWithRetryDefault gen).1 with
  | Except.ok t => t
  | Except.error _ =>
    if isCorrect then feedbackAckCorrect else feedbackAckIncorrect

/-- A rate-limit error: status 429. -/
def rlError : ApiError := { status := some 429, message := "rate limited" }

/-- A non-rate-limit (structural) error. -/
def hardError : ApiError := { status := some 400, message := "bad request" }

/-- Oracle failing with a rate-limit signal on attempts 0, 1, 2 and
succeeding on attempt 3. -/
def rlThenOk : Nat → Except ApiError Nat :=
  fun n => if n < 3 then Except.error rlError else Except.ok 42

/-- Oracle failing with a rate-limit signal on every attempt. -/
def alwaysRL : Nat → Except ApiError Nat := fun _ => Except.error rlError

/-- Oracle failing with a non-rate-limit error on every attempt. -/
def alwaysHard : Nat → Except ApiError Nat := fun _ => Except.error hardError

/-- C3: `callWithRetry` retries exactly when the error signals a
rate-limit condition (status 429 or a message containing the
resource-exhaustion marker) and remaining attempts are positive, sleeping
the current delay and doubling it before each retry. Conjuncts: (1) a
non-rate-limit failure propagates immediately with no retry and no delay;
(2) with 0 attempts left any failure propagates with no delay; (3) a
rate-limit failure with attempts left sleeps the current delay and retries
with the doubled delay; (4) under the default policy (3 retries, 2000 ms)
an operation rate-limited 3 times then succeeding returns the success
value after total delays 2000 + 4000 + 8000 = 14000 ms; (5) persistent
rate-limiting exhausts all attempts and propagates the last error after
the same 14000 ms; (6) a non-rate-limit failure under the default policy
propagates with 0 ms delay. -/
theorem callWithRetry_spec :
    (∀ (T : Type) (fn : Nat → Except ApiError T)
        (retries delay attempt : Nat) (e : ApiError),
        fn attempt = Except.error e → isRateLimit e = false →
        callWithRetry fn retries delay attempt = (Except.error e, 0)) ∧
    (∀ (T : Type) (fn : Nat → Except ApiError T)
        (delay attempt : Nat) (e : ApiError),
        fn attempt = Except.error e →
        callWithRetry fn 0 delay attempt = (Except.error e, 0)) ∧
    (∀ (T : Type) (fn : Nat → Except ApiError T)
        (r delay attempt : Nat) (e : ApiError),
        fn attempt = Except.error e → isRateLimit e = true →
        callWithRetry fn (r + 1) delay attempt =
          ((callWithRetry fn r (delay * 2) (attempt + 1)).1,
            delay + (callWithRetry fn r (delay * 2) (attempt + 1)).2)) ∧
    callWithRetryDefault rlThenOk = (Except.ok 42, 14000) ∧
    callWithRetryDefault alwaysRL = (Except.error rlError, 14000) ∧
    callWithRetryDefault alwaysHard = (Except.error hardError, 0) := by
  refine ⟨?_, ?_, ?_, ?_, ?_, ?_⟩
  · intro T fn retries delay attempt e hf hrl
    rw [callWithRetry.eq_def, hf]
    cases retries with
    | zero => rfl
    | succ r => simp [hrl]
  · intro T fn delay attempt e hf
    rw [callWithRetry.eq_def, hf]
  · intro T fn r delay attempt e hf hrl
    rw [callWithRetry.eq_def, hf]
    simp [hrl]
  · rfl
  · rfl
  · rfl

/-- Witness for C3: instantiating the first conjunct at the concrete
always-failing non-rate-limit oracle with a non-default policy. -/
theorem callWithRetry_spec_witness :
    callWithRetry alwaysHard 5 1000 0 = (Except.error hardError, 0) :=
  callWithRetry_spec.1 Nat alwaysHard 5 1000 0 hardError rfl rfl

/-- C4: the insight fetch and the feedback-acknowledgement fetch never
throw: whenever the retrying call fails (non-retryable error or exhaustion
of all attempts), `getInsightForClass` returns its fixed fallback string
and `processFeedback` returns the fixed fallback chosen by `isCorrect`;
moreover every result of `getInsightForClass` is either the fallback or
the success value of the underlying call. -/
theorem insight_never_throws :
    (∀ (gen : Nat → Except ApiError String) (e : ApiError),
        (callWithRetryDefault gen).1 = Except.error e →
        getInsightForClass gen = insightFallback) ∧
    (∀ (gen : Nat → Except ApiError String) (isCorrect : Bool) (e : ApiError),
        (callWithRetryDefault gen).1 = Except.error e →
        processFeedback gen isCorrect =
          if isCorrect then feedbackAckCorrect else feedbackAckIncorrect) ∧
    (∀ gen : Nat → Except ApiError String,
        getInsightForClass gen = insightFallback ∨
        (callWithRetryDefault gen).1 = Except.ok (getInsightForClass gen)) := by
  refine ⟨?_, ?_, ?_⟩
  · intro gen e h
    simp [getInsightForClass, h]
  · intro gen isCorrect e h
    simp [processFeedback, h]
  · intro gen
    cases hc : (callWithRetryDefault gen).1 with
    | ok t => right; simp [getInsightForClass, hc]
    | error e => left; simp [getInsightForClass, hc]

/-- Oracle over `String` results failing with a non-rate-limit error on
every attempt. -/
def alwaysHardStr : Nat → Except ApiError String :=
  fun _ => Except.error hardError

/-- Witness for C4: a generator that always fails with a structural error
makes `getInsightForClass` return the fallback. -/
theorem insight_never_throws_witness :
    getInsightForClass alwaysHardStr = insightFallback :=
  insight_never_throws.1 alwaysHardStr hardError rfl

/-! ## App state (`App.tsx`) -/

/-- `AppStatus` from `types.ts`. -/
inductive AppStatus where
  | IDLE
  | LOADING_MODEL
  | READY
  | RUNNING
  | ERROR
deriving DecidableEq, Repr

/-- `type InputSource = 'DRIVE' | 'CAMERA'`. -/
inductive InputSource where
  | DRIVE
  | CAMERA
deriving DecidableEq, Repr

/-- The `type` discriminant of `FeedbackHistory` entries. -/
inductive FeedbackType where
  | CORRECTION
  | CONFIRMATION
deriving DecidableEq, Repr

/-- `FeedbackHistory` from `types.ts`. -/
structure FeedbackHistory where
  timestamp : Nat
  originalLabel : String
  correctedLabel : String
  type : FeedbackType
deriving DecidableEq, Repr

theorem FeedbackHistory.mk_eta (e : FeedbackHistory) :
    FeedbackHistory.mk e.timestamp e.originalLabel e.correctedLabel e.type = e :=
  rfl

/-- The React state of `App` relevant to the interaction pipeline,
together with the persisted copy of the feedback history
(`localStorage` key `tm_feedback_history`, modelled as `storedHistory`). -/
structure AppState where
  status : AppStatus
  predictions : List Prediction
  predictionIndex : Nat
  isManualInput : Bool
  manualValue : String
  feedbackGiven : Bool
  feedbackResponse : Option String
  insight : Option String
  isInsightLoading : Bool
  feedbackHistory : List FeedbackHistory
  storedHistory : List FeedbackHistory
  inputSource : InputSource
  targetImage : Option String
  imagePreview : Option String
  isCameraActive : Bool
deriving DecidableEq, Repr

/-- The initial React state on mount (a page reload re-runs all
`useState` initializers; the feedback history is re-read from storage). -/
def initialState (stored : List FeedbackHistory) : AppState :=
  { status := AppStatus.LOADING_MODEL
    predictions := []
    predictionIndex := 0
    isManualInput := false
    manualValue := ""
    feedbackGiven := false
    feedbackResponse := none
    insight := none
    isInsightLoading := false
    feedbackHistory := stored
    storedHistory := stored
    inputSource := InputSource.DRIVE
    targetImage := none
    imagePreview := none
    isCameraActive := false }

/-- `window.location.reload()`: every React state is reinitialized; the
feedback history is reloaded from persisted storage. -/
def reloadApp (s : AppState) : AppState := initialState s.storedHistory

/-- The per-session review fields are all at their cleared values. -/
def sessionCleared (s : AppState) : Prop :=
  s.predictions = [] ∧ s.predictionIndex = 0 ∧ s.isManualInput = false ∧
    s.manualValue = "" ∧ s.feedbackGiven = false ∧ s.feedbackResponse = none ∧
    s.insight = none ∧ s.isInsightLoading = false

/-- `resetFeedback()` (App.tsx lines 115-123). -/
def resetFeedback (s : AppState) : AppState :=
  { s with predictionIndex := 0
           isManualInput := false
           manualValue := ""
           feedbackGiven := false
           feedbackResponse := none
           insight := none
           isInsightLoading := false }

/-! ## Frame normalization (`getProcessedCanvas`, App.tsx 125-151) -/

/-- The normalized drawing a successful `getProcessedCanvas` performs on
the scratch canvas: the fixed output size, the centered square crop
parameters of `drawImage`, and whether the horizontal flip transform was
applied first. Offsets are rationals because JavaScript `(sw - size) / 2`
is real division. -/
structure ProcessedCanvas where
  width : Nat
  height : Nat
  cropSize : Nat
  offsetX : ℚ
  offsetY : ℚ
  flipped : Bool
deriving DecidableEq, Repr

/-- `getProcessedCanvas()`, with the selected visual source modelled as an
optional (width, height) pair (`none` when neither a streaming video nor a
loaded image element is available). The scratch canvas is rendered
unconditionally by the component, so only the source can be missing.
Returns `none` (the code's `null`) when the source is missing or has zero
width or height; otherwise the centered square crop of side
`min(width, height)` drawn onto the fixed 224x224 canvas, mirrored first
when `shouldFlip` is set. -/
def getProcessedCanvas (source : Option (Nat × Nat)) (shouldFlip : Bool) :
    Option ProcessedCanvas :=
  match source with
  | none => none
  | some (sw, sh) =>
    if sw = 0 ∨ sh = 0 then none
    else
      some { width := 224
             height := 224
             cropSize := min sw sh
             offsetX := ((sw : ℚ) - ((min sw sh : Nat) : ℚ)) / 2
             offsetY := ((sh : ℚ) - ((min sw sh : Nat) : ℚ)) / 2
             flipped := shouldFlip }

/-! ## Feedback log (`addFeedbackToLog`, App.tsx 179-189) -/

/-- The history cap: `.slice(0, 5)`. -/
def maxHistoryLength : Nat := 5

/-- `addFeedbackToLog(original, corrected, type)`: prepends a fresh entry
(timestamped `now`), truncates to the 5 most recent, and writes the result
both to React state and to `localStorage`. -/
def addFeedbackToLog (now : Nat) (original corrected : String)
    (ty : FeedbackType) (s : AppState) : AppState :=
  let entry : FeedbackHistory :=
    { timestamp := now, originalLabel := original,
      correctedLabel := corrected, type := ty }
  let newHistory := (entry :: s.feedbackHistory).take maxHistoryLength
  { s with feedbackHistory := newHistory, storedHistory := newHistory }

/-- `addFeedbackToLog` applied to an entry's own fields (structure eta
makes the logged entry equal to `e`). -/
def appendEvent (e : FeedbackHistory) (s : AppState) : AppState :=
  addFeedbackToLog e.timestamp e.originalLabel e.correctedLabel e.type s

/-! ## Feedback handlers (App.tsx 191-246) -/

/-- `predictions[predictionIndex]?.className || "Unknown"`: JavaScript
`||` also falls through on an empty class name (falsy string). -/
def currentLabelOrUnknown (s : AppState) : String :=
  match s.predictions[s.predictionIndex]? with
  | some p => if p.className = "" then "Unknown" else p.className
  | none => "Unknown"

/-- The fixed delay before the post-feedback reload: `setTimeout(...,
4000)`. -/
def feedbackResetDelayMs : Nat := 4000

/-- `handleCorrectFeedback()`: marks feedback given, logs a CONFIRMATION
event with both labels equal to the current candidate's label, records the
acknowledgement `ack` (the resolved `processFeedback` result), and
schedules the reload after the fixed delay (returned as the second
component). -/
def handleCorrectFeedback (now : Nat) (ack : String) (s : AppState) :
    AppState × Nat :=
  let currentLabel := currentLabelOrUnknown s
  let s1 := { s with feedbackGiven := true }
  let s2 := addFeedbackToLog now currentLabel currentLabel
    FeedbackType.CONFIRMATION s1
  ({ s2 with feedbackResponse := some ack }, feedbackResetDelayMs)

/-- The confidence threshold `0.05`. -/
def confidenceThreshold : ℚ := 5 / 100

/-- The guard of `handleWrongFeedback` (App.tsx line 205):
`predictionIndex === 0 && predictions.length > 1 &&
predictions[1].probability > 0.05`. -/
def wrongFeedbackAdvances (s : AppState) : Bool :=
  s.predictionIndex == 0 && decide (1 < s.predictions.length) &&
    (match s.predictions[1]? with
     | some p => decide (confidenceThreshold < p.probability)
     | none => false)

/-- `handleWrongFeedback()`: when the guard holds, advances the cursor to
index 1 and installs the freshly fetched insight (`insightText`, the
resolved `getInsightForClass` result); otherwise switches to manual
entry. -/
def handleWrongFeedback (insightText : String) (s : AppState) : AppState :=
  if wrongFeedbackAdvances s then
    { s with predictionIndex := 1
             insight := some insightText
             isInsightLoading := false }
  else
    { s with isManualInput := true }

/-- JavaScript `String.prototype.trim`: strips whitespace from both ends,
modelled on the string's character list. -/
def trimChars (s : String) : List Char :=
  ((s.toList.dropWhile Char.isWhitespace).reverse.dropWhile
    Char.isWhitespace).reverse

/-- `handleManualSubmit(e)`: rejects an empty-after-trim manual value
(`if (!manualValue.trim()) return;`) with no state change at all;
otherwise marks feedback given, logs a CORRECTION event whose corrected
label is the raw (untrimmed) `manualValue`, sets the canned response, and
schedules the reload. -/
def handleManualSubmit (now : Nat) (s : AppState) : AppState :=
  if trimChars s.manualValue = [] then s
  else
    let original := currentLabelOrUnknown s
    let s1 := { s with feedbackGiven := true }
    let s2 := addFeedbackToLog now original s.manualValue
      FeedbackType.CORRECTION s1
    let response := "Recorded \"" ++ s.manualValue ++ "\" as correction. Refreshing module..."
    { s2 with feedbackResponse := some response }

/-- `handleTargetImageChange(e)`: with a chosen file, stores it, sets the
preview (once the reader resolves), resets all feedback state and clears
the pending predictions; with no file (dialog cancelled) nothing
happens. -/
def handleTargetImageChange (file : Option String) (preview : String)
    (s : AppState) : AppState :=
  match file with
  | none => s
  | some f =>
    let s1 := { s with targetImage := some f, imagePreview := some preview }
    let s2 := resetFeedback s1
    { s2 with predictions := [] }

/-- The `useEffect` on `inputSource` (App.tsx 107-113): switching to the
camera starts the stream (success path of `startCamera`), switching away
stops it. No other field is touched. -/
def inputSourceEffect (s : AppState) : AppState :=
  if s.inputSource = InputSource.CAMERA then
    { s with isCameraActive := true }
  else
    { s with isCameraActive := false }

/-- The ranked set of the spec's cascade example, under review at
cursor 0: `[("cat", 0.9), ("dog", 0.06), ("fish", 0.01)]`. -/
def catDogFishState : AppState :=
  { initialState [] with
      status := AppStatus.READY
      predictions := [⟨"cat", 9/10⟩, ⟨"dog", 6/100⟩, ⟨"fish", 1/100⟩] }

/-- C2: rejecting the current candidate advances the cursor to index 1
exactly when the cursor is 0, a second ranked candidate exists, and its
probability exceeds the 0.05 threshold (conjunct 1 characterizes the
guard; conjuncts 2 and 3 give the two transition effects: advance to
cursor 1 without entering manual entry, or switch to manual entry with the
cursor unchanged). For the ranked set [("cat",0.9), ("dog",0.06),
("fish",0.01)], the cascade from cursor 0 advances to ("dog",0.06) at
index 1, and from cursor 1 rejection offers no further candidate
(conjuncts 4 and 5). -/
theorem handleWrongFeedback_spec :
    (∀ s : AppState,
        wrongFeedbackAdvances s = true ↔
          s.predictionIndex = 0 ∧
            ∃ p, s.predictions[1]? = some p ∧
              confidenceThreshold < p.probability) ∧
    (∀ (t : String) (s : AppState), wrongFeedbackAdvances s = true →
        (handleWrongFeedback t s).predictionIndex = 1 ∧
          (handleWrongFeedback t s).isManualInput = s.isManualInput) ∧
    (∀ (t : String) (s : AppState), wrongFeedbackAdvances s = false →
        (handleWrongFeedback t s).isManualInput = true ∧
          (handleWrongFeedback t s).predictionIndex = s.predictionIndex) ∧
    (wrongFeedbackAdvances catDogFishState = true ∧
      catDogFishState.predictions[1]? = some ⟨"dog", 6/100⟩) ∧
    wrongFeedbackAdvances { catDogFishState with predictionIndex := 1 } = false := by
  refine ⟨?_, ?_, ?_, ?_, ?_⟩
  · intro s
    cases hm : s.predictions[1]? with
    | none =>
      constructor
      · intro h
        simp [wrongFeedbackAdvances, hm] at h
      · rintro ⟨h0, p, hp, _⟩
        exact Option.noConfusion hp
    | some p =>
      have hlen : 1 < s.predictions.length := by
        by_contra hl
        rw [List.getElem?_eq_none (by omega)] at hm
        cases hm
      constructor
      · intro h
        simp only [wrongFeedbackAdvances, hm, Bool.and_eq_true, beq_iff_eq,
          decide_eq_true_eq] at h
        exact ⟨h.1.1, p, rfl, h.2⟩
      · rintro ⟨h0, q, hq, hth⟩
        injection hq with hq
        subst hq
        simp only [wrongFeedbackAdvances, hm, Bool.and_eq_true, beq_iff_eq,
          decide_eq_true_eq]
        exact ⟨⟨h0, hlen⟩, hth⟩
  · intro t s h
    simp [handleWrongFeedback, h]
  · intro t s h
    simp [handleWrongFeedback, h]
  · refine ⟨?_, rfl⟩
    norm_num [wrongFeedbackAdvances, catDogFishState, initialState,
      confidenceThreshold]
  · rfl

/-- Witness for C2: the cascade example at cursor 0 does advance to
index 1 without entering manual entry (the guard hypothesis is discharged
by the theorem's own concrete conjunct). -/
theorem handleWrongFeedback_spec_witness :
    (handleWrongFeedback "insight" catDogFishState).predictionIndex = 1 ∧
      (handleWrongFeedback "insight" catDogFishState).isManualInput =
        catDogFishState.isManualInput :=
  handleWrongFeedback_spec.2.1 "insight" catDogFishState
    handleWrongFeedback_spec.2.2.2.1.1

/-- C5: frame normalization returns no buffer exactly when the visual
source is missing or has zero width or zero height (conjunct 1); for every
non-degenerate source it produces the fixed 224x224 buffer cropping a
centered square of side `min(width, height)` at offsets
`((width - size) / 2, (height - size) / 2)`, flipped first exactly when
the mirror flag is set (conjunct 2); for a 300x200 source the crop size is
200 and the offsets are (50, 0) (conjunct 3). -/
theorem getProcessedCanvas_spec :
    (∀ (fl : Bool) (src : Option (Nat × Nat)),
        getProcessedCanvas src fl = none ↔
          src = none ∨ ∃ sw sh, src = some (sw, sh) ∧ (sw = 0 ∨ sh = 0)) ∧
    (∀ (fl : Bool) (sw sh : Nat), 0 < sw → 0 < sh →
        getProcessedCanvas (some (sw, sh)) fl =
          some { width := 224
                 height := 224
                 cropSize := min sw sh
                 offsetX := ((sw : ℚ) - ((min sw sh : Nat) : ℚ)) / 2
                 offsetY := ((sh : ℚ) - ((min sw sh : Nat) : ℚ)) / 2
                 flipped := fl }) ∧
    (∀ fl : Bool,
        getProcessedCanvas (some (300, 200)) fl =
          some { width := 224
                 height := 224
                 cropSize := 200
                 offsetX := 50
                 offsetY := 0
                 flipped := fl }) := by
  refine ⟨?_, ?_, ?_⟩
  · intro fl src
    cases src with
    | none => simp [getProcessedCanvas]
    | some wh =>
      obtain ⟨sw, sh⟩ := wh
      by_cases h : sw = 0 ∨ sh = 0
      · simp only [getProcessedCanvas, if_pos h]
        constructor
        · intro _
          exact Or.inr ⟨sw, sh, rfl, h⟩
        · intro _
          trivial
      · simp only [getProcessedCanvas, if_neg h]
        constructor
        · intro hc
          cases hc
        · rintro (hc | ⟨sw', sh', heq, hz⟩)
          · cases hc
          · rw [Option.some_inj, Prod.mk.injEq] at heq
            obtain ⟨h1, h2⟩ := heq
            subst h1
            subst h2
            exact absurd hz h
  · intro fl sw sh hw hh
    have h : ¬ (sw = 0 ∨ sh = 0) := by omega
    simp [getProcessedCanvas, h]
  · intro fl
    have hne : ¬ ((300 : Nat) = 0 ∨ (200 : Nat) = 0) := by decide
    simp only [getProcessedCanvas, if_neg hne, Option.some_inj]
    norm_num [ProcessedCanvas.mk.injEq]

/-- Witness for C5: instantiating the general conjunct at the 300x200
source of the claim (both dimension hypotheses discharged concretely). -/
theorem getProcessedCanvas_spec_witness :
    getProcessedCanvas (some (300, 200)) true =
      some { width := 224
             height := 224
             cropSize := min 300 200
             offsetX := ((300 : ℚ) - ((min 300 200 : Nat) : ℚ)) / 2
             offsetY := ((200 : ℚ) - ((min 300 200 : Nat) : ℚ)) / 2
             flipped := true } :=
  getProcessedCanvas_spec.2.1 true 300 200 (by decide) (by decide)

/-- `head?` of a freshly appended log is the new entry. -/
theorem head?_addFeedbackToLog (now : Nat) (o c : String) (ty : FeedbackType)
    (s : AppState) :
    (addFeedbackToLog now o c ty s).feedbackHistory.head? =
      some ⟨now, o, c, ty⟩ := rfl

/-- C6: appending a feedback event prepends it to the history, truncates
to the 5 most recent entries, and persists the result (the stored copy
equals the in-memory copy); starting from an empty history, 6 appends in
sequence yield exactly the 5 newest entries, newest first, with the first
(oldest) entry evicted. -/
theorem addFeedbackToLog_spec :
    (∀ (now : Nat) (o c : String) (ty : FeedbackType) (s : AppState),
        (addFeedbackToLog now o c ty s).feedbackHistory =
          (FeedbackHistory.mk now o c ty :: s.feedbackHistory).take
            maxHistoryLength ∧
        (addFeedbackToLog now o c ty s).storedHistory =
          (addFeedbackToLog now o c ty s).feedbackHistory) ∧
    (∀ (e1 e2 e3 e4 e5 e6 : FeedbackHistory) (s : AppState),
        s.feedbackHistory = [] →
        (appendEvent e6 (appendEvent e5 (appendEvent e4 (appendEvent e3
            (appendEvent e2 (appendEvent e1 s)))))).feedbackHistory =
          [e6, e5, e4, e3, e2]) := by
  constructor
  · intro now o c ty s
    exact ⟨rfl, rfl⟩
  · intro e1 e2 e3 e4 e5 e6 s h
    simp only [appendEvent, addFeedbackToLog, maxHistoryLength, h,
      FeedbackHistory.mk_eta]
    rfl

/-- A concrete feedback event for witnesses. -/
def ev (n : Nat) : FeedbackHistory :=
  { timestamp := n, originalLabel := "cat", correctedLabel := "dog",
    type := FeedbackType.CORRECTION }

/-- Witness for C6: six concrete appends starting from the initial (empty)
history. -/
theorem addFeedbackToLog_spec_witness :
    (appendEvent (ev 6) (appendEvent (ev 5) (appendEvent (ev 4)
        (appendEvent (ev 3) (appendEvent (ev 2)
          (appendEvent (ev 1) (initialState []))))))).feedbackHistory =
      [ev 6, ev 5, ev 4, ev 3, ev 2] :=
  addFeedbackToLog_spec.2 (ev 1) (ev 2) (ev 3) (ev 4) (ev 5) (ev 6)
    (initialState []) rfl

/-- C7 (amended): confirming a current candidate whose label is non-empty
marks feedback as given (the Finalized state), logs a CONFIRMATION event
whose original and corrected labels both equal the current candidate's
label, schedules the return to the cleared state after the fixed 4000 ms
delay, and the scheduled reload clears every session field while
preserving the persisted feedback history. (For an empty-string label the
JS falsy fallback `|| "Unknown"` logs "Unknown" instead of the
candidate's label — see the counterexample below — so the non-emptiness
hypothesis is exactly the amendment the code forces.) -/
theorem handleCorrectFeedback_spec (now : Nat) (ack : String) (s : AppState)
    (p : Prediction) (hp : s.predictions[s.predictionIndex]? = some p)
    (hne : p.className ≠ "") :
    (handleCorrectFeedback now ack s).1.feedbackGiven = true ∧
    (handleCorrectFeedback now ack s).1.feedbackHistory.head? =
      some ⟨now, p.className, p.className, FeedbackType.CONFIRMATION⟩ ∧
    (handleCorrectFeedback now ack s).2 = feedbackResetDelayMs ∧
    sessionCleared (reloadApp (handleCorrectFeedback now ack s).1) ∧
    (reloadApp (handleCorrectFeedback now ack s).1).feedbackHistory =
      (handleCorrectFeedback now ack s).1.feedbackHistory := by
  have hlabel : currentLabelOrUnknown s = p.className := by
    simp [currentLabelOrUnknown, hp, hne]
  refine ⟨rfl, ?_, rfl, ?_, rfl⟩
  · have h1 : (handleCorrectFeedback now ack s).1.feedbackHistory.head? =
        some ⟨now, currentLabelOrUnknown s, currentLabelOrUnknown s,
          FeedbackType.CONFIRMATION⟩ := rfl
    rw [h1, hlabel]
  · exact ⟨rfl, rfl, rfl, rfl, rfl, rfl, rfl, rfl⟩

/-- An anonymous candidate — its class name is the empty string — under
review at cursor 0. -/
def emptyLabelReviewState : AppState :=
  { initialState [] with
      status := AppStatus.READY
      predictions := [⟨"", 9/10⟩] }

/-- C7 counterexample: confirming a current candidate whose label is the
empty string logs `"Unknown"` (the JavaScript falsy fallback of
`predictions[predictionIndex]?.className || "Unknown"` at App.tsx:192) as
both labels of the CONFIRMATION event — not the candidate's label `""` —
refuting the claim that the logged labels always equal the current
candidate's label. -/
theorem handleCorrectFeedback_empty_label :
    emptyLabelReviewState.predictions[emptyLabelReviewState.predictionIndex]? =
      some ⟨"", 9/10⟩ ∧
    (handleCorrectFeedback 5 "ok" emptyLabelReviewState).1.feedbackHistory.head? =
      some ⟨5, "Unknown", "Unknown", FeedbackType.CONFIRMATION⟩ ∧
    ("Unknown" : String) ≠ "" := by
  refine ⟨rfl, rfl, ?_⟩
  decide

/-- The "Book" review session of the claim: a single ranked candidate
under review at cursor 0. -/
def bookReviewState : AppState :=
  { initialState [] with
      status := AppStatus.READY
      predictions := [⟨"Book", 9/10⟩] }

/-- Witness for C7: confirming the "Book" candidate. -/
theorem handleCorrectFeedback_spec_witness :
    (handleCorrectFeedback 1000 "Great!" bookReviewState).1.feedbackGiven = true ∧
    (handleCorrectFeedback 1000 "Great!" bookReviewState).1.feedbackHistory.head? =
      some ⟨1000, "Book", "Book", FeedbackType.CONFIRMATION⟩ ∧
    (handleCorrectFeedback 1000 "Great!" bookReviewState).2 = feedbackResetDelayMs ∧
    sessionCleared (reloadApp (handleCorrectFeedback 1000 "Great!" bookReviewState).1) ∧
    (reloadApp (handleCorrectFeedback 1000 "Great!" bookReviewState).1).feedbackHistory =
      (handleCorrectFeedback 1000 "Great!" bookReviewState).1.feedbackHistory :=
  handleCorrectFeedback_spec 1000 "Great!" bookReviewState ⟨"Book", 9/10⟩
    rfl (by decide)

/-- C8: a manual-entry submission whose text is empty or whitespace-only
is rejected locally: the whole state (manual-entry mode included) is
unchanged and no feedback event is created or persisted. -/
theorem handleManualSubmit_empty_spec (now : Nat) (s : AppState)
    (h : trimChars s.manualValue = []) :
    handleManualSubmit now s = s ∧
    (handleManualSubmit now s).feedbackHistory = s.feedbackHistory ∧
    (handleManualSubmit now s).storedHistory = s.storedHistory ∧
    (handleManualSubmit now s).isManualInput = s.isManualInput := by
  have he : handleManualSubmit now s = s := by
    simp [handleManualSubmit, h]
  exact ⟨he, by rw [he], by rw [he], by rw [he]⟩

/-- A session sitting in manual entry with whitespace-only text. -/
def whitespaceEntryState : AppState :=
  { initialState [] with
      status := AppStatus.READY
      predictions := [⟨"cat", 9/10⟩]
      isManualInput := true
      manualValue := "   " }

/-- Witness for C8: submitting three spaces changes nothing. -/
theorem handleManualSubmit_empty_spec_witness :
    handleManualSubmit 0 whitespaceEntryState = whitespaceEntryState ∧
    (handleManualSubmit 0 whitespaceEntryState).feedbackHistory =
      whitespaceEntryState.feedbackHistory ∧
    (handleManualSubmit 0 whitespaceEntryState).storedHistory =
      whitespaceEntryState.storedHistory ∧
    (handleManualSubmit 0 whitespaceEntryState).isManualInput =
      whitespaceEntryState.isManualInput :=
  handleManualSubmit_empty_spec 0 whitespaceEntryState (by decide)

/-- C10: a manual correction whose text is non-empty after trimming logs
a CORRECTION event storing the raw, untrimmed submitted text as the
corrected label (trimming is used only to validate non-emptiness). -/
theorem handleManualSubmit_raw_label (now : Nat) (s : AppState)
    (h : trimChars s.manualValue ≠ []) :
    (handleManualSubmit now s).feedbackHistory.head? =
      some ⟨now, currentLabelOrUnknown s, s.manualValue,
        FeedbackType.CORRECTION⟩ ∧
    (handleManualSubmit now s).feedbackGiven = true := by
  constructor <;> simp only [handleManualSubmit, if_neg h] <;> rfl

/-- Manual entry with a padded label: trimmed non-empty, but carrying
leading and trailing whitespace. -/
def paddedEntryState : AppState :=
  { initialState [] with
      status := AppStatus.READY
      predictions := [⟨"cat", 9/10⟩]
      isManualInput := true
      manualValue := " Book " }

/-- Witness for C10: submitting " Book " stores the raw padded string as
the corrected label. -/
theorem handleManualSubmit_raw_label_witness :
    (handleManualSubmit 7 paddedEntryState).feedbackHistory.head? =
      some ⟨7, currentLabelOrUnknown paddedEntryState, " Book ",
        FeedbackType.CORRECTION⟩ ∧
    (handleManualSubmit 7 paddedEntryState).feedbackGiven = true :=
  handleManualSubmit_raw_label 7 paddedEntryState (by decide)

/-- A pending review session at the moment the user switches the input
source to the camera: predictions and insight are still present. -/
def pendingReviewCameraState : AppState :=
  { initialState [] with
      status := AppStatus.READY
      predictions := [⟨"cat", 9/10⟩]
      insight := some "cats are great"
      inputSource := InputSource.CAMERA }

/-- C9 counterexample: switching the input source to the camera (the
`useEffect` on `inputSource`) does NOT discard the pending session — the
pending predictions and insight survive, refuting "enabling the camera
returns the machine to Idle with the full session state discarded". -/
theorem inputSourceEffect_keeps_session :
    (inputSourceEffect pendingReviewCameraState).predictions ≠ [] ∧
    (inputSourceEffect pendingReviewCameraState).predictions =
      pendingReviewCameraState.predictions ∧
    (inputSourceEffect pendingReviewCameraState).insight =
      some "cats are great" := by
  refine ⟨?_, rfl, rfl⟩
  intro h
  exact List.cons_ne_nil _ _ h

/-- C9 amended: choosing a new image discards the full session state
(cursor, manual-entry flag, manual text, feedback flags, insight, pending
predictions), but enabling the camera (the `inputSource` effect) only
toggles the stream and leaves every session field unchanged, so a pending
review is invalidated by a new image yet survives a switch to the
camera. -/
theorem newFrame_amended :
    (∀ (f preview : String) (s : AppState),
        sessionCleared (handleTargetImageChange (some f) preview s)) ∧
    (∀ s : AppState,
        (inputSourceEffect s).predictions = s.predictions ∧
        (inputSourceEffect s).predictionIndex = s.predictionIndex ∧
        (inputSourceEffect s).isManualInput = s.isManualInput ∧
        (inputSourceEffect s).manualValue = s.manualValue ∧
        (inputSourceEffect s).feedbackGiven = s.feedbackGiven ∧
        (inputSourceEffect s).feedbackResponse = s.feedbackResponse ∧
        (inputSourceEffect s).insight = s.insight ∧
        (inputSourceEffect s).isInsightLoading = s.isInsightLoading) := by
  constructor
  · intro f preview s
    exact ⟨rfl, rfl, rfl, rfl, rfl, rfl, rfl, rfl⟩
  · intro s
    unfold inputSourceEffect
    split <;> exact ⟨rfl, rfl, rfl, rfl, rfl, rfl, rfl, rfl⟩

end VisionQuest
